import Mathlib

/-!
Shallow embedding of the core of `adevinta/go-k8s-toolkit` and proofs about it.

Embedded source files:
* `client_readonly.go` — the read-only (capability-limited) decorator over a
  controller-runtime client;
* the objects codec (`ParseKubernetesObjects`, `commentOnly`, `ParseError`,
  `SerialiseObjects`);
* `KubeConfigPath` from the client-config builder file.

Modelling conventions:
* Go strings / byte slices of the codec are modelled as `List Char` (`Line`),
  a document chunk as its list of lines (`Chunk`);
* errors are `Option String` (a `nil` Go error is `none`) or `Except`;
* the delegate controller-runtime client is an external collaborator: it is
  modelled as a record of response functions, and every delegate method is
  instrumented to report the list of calls it performed, so that "the delegate
  is never invoked" and "the delegate is invoked exactly once" are provable
  statements about the returned call trace;
* the registry deserializer (`scheme.Codecs.UniversalDeserializer().Decode`)
  is an external collaborator modelled as a function
  `Chunk → Option α → Except String (α × Bool)`: given the chunk payload and
  the current prototype value (Go's `into` argument, `none` when the caller
  passed a nil prototype), it returns the decoded object together with a flag
  telling whether it decoded into the supplied prototype (the behaviour the
  source guards against by calling `DeepCopyObject` before every decode).
  `DeepCopyObject` is value-preserving, so at the level of values the carried
  prototype after a decode equals the decoded object when the deserializer
  decoded into it, and is unchanged otherwise.
-/

/-- One observable call on the wrapped delegate client. -/
inductive DelegateCall where
  | get (key : String)
  | list (kind : String)
  | restMapper
  | scheme
  | groupVersionKindFor (obj : String)
  | isObjectNamespaced (obj : String)
  | subGet (resource : String) (key : String)
  deriving DecidableEq

/-- The delegate's sub-resource client (`client.SubResourceClient`),
modelled by its response function for reads. -/
structure SubDelegate where
  resource : String
  getResult : String → Except String String

/-- The wrapped delegate (`client.Client`), an external collaborator:
a record of response functions for each read/introspection operation. -/
structure Delegate where
  getResult : String → Except String String
  listResult : String → Except String (List String)
  restMapperResult : String
  schemeResult : String
  groupVersionKindForResult : String → Except String String
  isObjectNamespacedResult : String → Except String Bool
  subResourceResult : String → SubDelegate

/-- Calling `Get` directly on the delegate: its response plus the one call it logs. -/
def Delegate.get (d : Delegate) (key : String) :
    Except String String × List DelegateCall :=
  (d.getResult key, [DelegateCall.get key])

/-- Calling `List` directly on the delegate. -/
def Delegate.list (d : Delegate) (kind : String) :
    Except String (List String) × List DelegateCall :=
  (d.listResult kind, [DelegateCall.list kind])

/-- Calling `RESTMapper` directly on the delegate. -/
def Delegate.restMapper (d : Delegate) : String × List DelegateCall :=
  (d.restMapperResult, [DelegateCall.restMapper])

/-- Calling `Scheme` directly on the delegate. -/
def Delegate.scheme (d : Delegate) : String × List DelegateCall :=
  (d.schemeResult, [DelegateCall.scheme])

/-- Calling `GroupVersionKindFor` directly on the delegate. -/
def Delegate.groupVersionKindFor (d : Delegate) (obj : String) :
    Except String String × List DelegateCall :=
  (d.groupVersionKindForResult obj, [DelegateCall.groupVersionKindFor obj])

/-- Calling `IsObjectNamespaced` directly on the delegate. -/
def Delegate.isObjectNamespaced (d : Delegate) (obj : String) :
    Except String Bool × List DelegateCall :=
  (d.isObjectNamespacedResult obj, [DelegateCall.isObjectNamespaced obj])

/-- Calling `Get` on a delegate sub-resource client. -/
def SubDelegate.get (sd : SubDelegate) (key : String) :
    Except String String × List DelegateCall :=
  (sd.getResult key, [DelegateCall.subGet sd.resource key])

/-- Model of `type readOnlyClient struct { client.Client; newError func(string) error }`.
The embedded delegate is `Option`al: the source allows `ReadOnlyClient(nil)`. -/
structure readOnlyClient where
  Client : Option Delegate
  newError : String → Option String

/-- Model of `type readOnlySubresourceClient struct { client.SubResourceClient; newError func(string) error }`. -/
structure readOnlySubresourceClient where
  SubResourceClient : Option SubDelegate
  newError : String → Option String

/-- Source `WithErrorBuilder(newError)`: mutator replacing the error policy. -/
def WithErrorBuilder (f : String → Option String) : readOnlyClient → readOnlyClient :=
  fun c => { c with newError := f }

/-- Source `WithNoError()`: policy returning a nil error for every denied method. -/
def WithNoError : readOnlyClient → readOnlyClient :=
  WithErrorBuilder (fun _ => none)

/-- Source `WithError()`: the explicit denial-message policy. -/
def WithError : readOnlyClient → readOnlyClient :=
  WithErrorBuilder (fun method => some (method ++ " not allowed in read-only mode"))

/-- Source `ReadOnlyClient(client, mutators...)`: builds the decorator with the default
policy and applies the mutators in order. -/
def ReadOnlyClient (client : Option Delegate)
    (mutators : List (readOnlyClient → readOnlyClient)) : readOnlyClient :=
  mutators.foldl (fun c m => m c)
    { Client := client
      newError := fun method => some (method ++ " not allowed in read-only mode") }

/-- Source `func (r *readOnlyClient) Create(...) error { return r.newError("Create") }`.
The pair's second component is the list of delegate calls performed: writes
perform none, so the delegate state is untouched. -/
def readOnlyClient.Create (r : readOnlyClient) : Option String × List DelegateCall :=
  (r.newError "Create", [])

/-- Source `func (r *readOnlyClient) Update(...) error { return r.newError("Update") }`. -/
def readOnlyClient.Update (r : readOnlyClient) : Option String × List DelegateCall :=
  (r.newError "Update", [])

/-- Source `func (r *readOnlyClient) Patch(...) error { return r.newError("Patch") }`. -/
def readOnlyClient.Patch (r : readOnlyClient) : Option String × List DelegateCall :=
  (r.newError "Patch", [])

/-- Source `func (r *readOnlyClient) Delete(...) error { return r.newError("Delete") }`. -/
def readOnlyClient.Delete (r : readOnlyClient) : Option String × List DelegateCall :=
  (r.newError "Delete", [])

/-- Source `func (r *readOnlyClient) DeleteAllOf(...) error { return r.newError("DeleteAllOf") }`. -/
def readOnlyClient.DeleteAllOf (r : readOnlyClient) : Option String × List DelegateCall :=
  (r.newError "DeleteAllOf", [])

/-- Method `Get` is not overridden by the decorator: it is the promoted method of the
embedded `client.Client`. With a nil embedded delegate the Go call panics,
modelled by `none`. -/
def readOnlyClient.Get (r : readOnlyClient) (key : String) :
    Option (Except String String × List DelegateCall) :=
  r.Client.map (fun d => d.get key)

/-- Promoted `RESTMapper` of the embedded delegate. -/
def readOnlyClient.RESTMapper (r : readOnlyClient) :
    Option (String × List DelegateCall) :=
  r.Client.map (fun d => d.restMapper)

/-- Promoted `Scheme` of the embedded delegate. -/
def readOnlyClient.Scheme (r : readOnlyClient) :
    Option (String × List DelegateCall) :=
  r.Client.map (fun d => d.scheme)

/-- Promoted `GroupVersionKindFor` of the embedded delegate. -/
def readOnlyClient.GroupVersionKindFor (r : readOnlyClient) (obj : String) :
    Option (Except String String × List DelegateCall) :=
  r.Client.map (fun d => d.groupVersionKindFor obj)

/-- Promoted `IsObjectNamespaced` of the embedded delegate. -/
def readOnlyClient.IsObjectNamespaced (r : readOnlyClient) (obj : String) :
    Option (Except String Bool × List DelegateCall) :=
  r.Client.map (fun d => d.isObjectNamespaced obj)

/-- Promoted `List` of the embedded delegate. (Declared after the other read
methods so that `List` in their signatures keeps denoting the list type.) -/
def readOnlyClient.List (r : readOnlyClient) (kind : String) :
    Option (Except String (List String) × List DelegateCall) :=
  r.Client.map (fun d => d.list kind)

/-- Source `func (r *readOnlyClient) SubResource(resource string) client.SubResourceClient`:
asks the delegate for its sub-resource client when one is present and wraps it
with the same `newError` policy. -/
def readOnlyClient.SubResource (r : readOnlyClient) (resource : String) :
    readOnlySubresourceClient :=
  { SubResourceClient := r.Client.map (fun d => d.subResourceResult resource)
    newError := r.newError }

/-- Source `func (r *readOnlyClient) Status() client.StatusWriter { return r.SubResource("status") }`. -/
def readOnlyClient.Status (r : readOnlyClient) : readOnlySubresourceClient :=
  r.SubResource "status"

/-- Source `func (r *readOnlySubresourceClient) Update(...) error { return r.newError("Update") }`. -/
def readOnlySubresourceClient.Update (r : readOnlySubresourceClient) :
    Option String × List DelegateCall :=
  (r.newError "Update", [])

/-- Source `func (r *readOnlySubresourceClient) Create(...) error { return r.newError("Update") }`.
The source really passes the string `"Update"` here, not `"Create"`. -/
def readOnlySubresourceClient.Create (r : readOnlySubresourceClient) :
    Option String × List DelegateCall :=
  (r.newError "Update", [])

/-- Source `func (r *readOnlySubresourceClient) Patch(...) error { return r.newError("Update") }`.
The source really passes the string `"Update"` here, not `"Patch"`. -/
def readOnlySubresourceClient.Patch (r : readOnlySubresourceClient) :
    Option String × List DelegateCall :=
  (r.newError "Update", [])

/-- Method `Get` promoted from the wrapped sub-resource delegate (panics in Go when absent). -/
def readOnlySubresourceClient.Get (r : readOnlySubresourceClient) (key : String) :
    Option (Except String String × List DelegateCall) :=
  r.SubResourceClient.map (fun sd => sd.get key)

/-- C1: every mutating operation (Create, Update, Patch, Delete, DeleteAllOf) on a
capability-limited client built with the default policy performs no delegate call
(the trace is empty, so the delegate's state is unchanged) and returns the failure
message consisting of the operation name followed by " not allowed in read-only mode". -/
theorem spec_c1_default_policy_denies_all_writes (d : Option Delegate) :
    readOnlyClient.Create (ReadOnlyClient d []) =
      (some "Create not allowed in read-only mode", []) ∧
    readOnlyClient.Update (ReadOnlyClient d []) =
      (some "Update not allowed in read-only mode", []) ∧
    readOnlyClient.Patch (ReadOnlyClient d []) =
      (some "Patch not allowed in read-only mode", []) ∧
    readOnlyClient.Delete (ReadOnlyClient d []) =
      (some "Delete not allowed in read-only mode", []) ∧
    readOnlyClient.DeleteAllOf (ReadOnlyClient d []) =
      (some "DeleteAllOf not allowed in read-only mode", []) := by
  refine ⟨?_, ?_, ?_, ?_, ?_⟩ <;> rfl

/-- C2 (divergence witness): on the sub-resource handles obtained through
`Status()` or `SubResource(name)` of a default-policy client, `Update` is denied
with the message naming Update, but `Create` and `Patch` are denied with a message
naming Update as well (the source passes "Update" to the policy in all three
methods), not the operation actually invoked. -/
theorem spec_c2_subresource_denials_all_say_update (d : Option Delegate) (name : String) :
    readOnlySubresourceClient.Update (readOnlyClient.Status (ReadOnlyClient d [])) =
      (some "Update not allowed in read-only mode", []) ∧
    readOnlySubresourceClient.Create (readOnlyClient.Status (ReadOnlyClient d [])) =
      (some "Update not allowed in read-only mode", []) ∧
    readOnlySubresourceClient.Patch (readOnlyClient.Status (ReadOnlyClient d [])) =
      (some "Update not allowed in read-only mode", []) ∧
    readOnlySubresourceClient.Create (readOnlyClient.SubResource (ReadOnlyClient d []) name) =
      (some "Update not allowed in read-only mode", []) ∧
    readOnlySubresourceClient.Patch (readOnlyClient.SubResource (ReadOnlyClient d []) name) =
      (some "Update not allowed in read-only mode", []) ∧
    ("Update not allowed in read-only mode" ≠ "Create not allowed in read-only mode") ∧
    ("Update not allowed in read-only mode" ≠ "Patch not allowed in read-only mode") := by
  refine ⟨rfl, rfl, rfl, rfl, rfl, ?_, ?_⟩ <;> decide

/-- C3: every read/introspection operation on a capability-limited client whose
delegate is present is the delegate's own operation: the result (and error) is
identical to calling the delegate directly, and the call trace shows the delegate
invoked exactly once with that operation. The policy `ne` is arbitrary. -/
theorem spec_c3_reads_forward_to_delegate (d : Delegate) (ne : String → Option String)
    (key kind obj₁ obj₂ : String) :
    readOnlyClient.Get { Client := some d, newError := ne } key = some (d.get key) ∧
    (d.get key).2 = [DelegateCall.get key] ∧
    readOnlyClient.List { Client := some d, newError := ne } kind = some (d.list kind) ∧
    (d.list kind).2 = [DelegateCall.list kind] ∧
    readOnlyClient.RESTMapper { Client := some d, newError := ne } = some d.restMapper ∧
    d.restMapper.2 = [DelegateCall.restMapper] ∧
    readOnlyClient.Scheme { Client := some d, newError := ne } = some d.scheme ∧
    d.scheme.2 = [DelegateCall.scheme] ∧
    readOnlyClient.GroupVersionKindFor { Client := some d, newError := ne } obj₁ =
      some (d.groupVersionKindFor obj₁) ∧
    (d.groupVersionKindFor obj₁).2 = [DelegateCall.groupVersionKindFor obj₁] ∧
    readOnlyClient.IsObjectNamespaced { Client := some d, newError := ne } obj₂ =
      some (d.isObjectNamespaced obj₂) ∧
    (d.isObjectNamespaced obj₂).2 = [DelegateCall.isObjectNamespaced obj₂] := by
  refine ⟨?_, ?_, ?_, ?_, ?_, ?_, ?_, ?_, ?_, ?_, ?_, ?_⟩ <;> rfl

/-- C10: with a nil delegate the decorator still hands out sub-resource handles
carrying the same policy (and no wrapped delegate), every write on the client and
on those handles returns the policy's result with an empty delegate-call trace,
writes do not depend on the delegate at all (the same result is produced whatever
delegate is present), and only reads consult the delegate (`Get` has no delegate
to call, which in Go is the documented nil-dereference of the read path). -/
theorem spec_c10_nil_delegate_write_only (ne : String → Option String)
    (name key : String) (d' : Delegate) :
    (readOnlyClient.Status { Client := none, newError := ne }).SubResourceClient = none ∧
    (readOnlyClient.Status { Client := none, newError := ne }).newError = ne ∧
    (readOnlyClient.SubResource { Client := none, newError := ne } name).SubResourceClient
      = none ∧
    (readOnlyClient.SubResource { Client := none, newError := ne } name).newError = ne ∧
    readOnlyClient.Create { Client := none, newError := ne } = (ne "Create", []) ∧
    readOnlyClient.Update { Client := none, newError := ne } = (ne "Update", []) ∧
    readOnlyClient.Patch { Client := none, newError := ne } = (ne "Patch", []) ∧
    readOnlyClient.Delete { Client := none, newError := ne } = (ne "Delete", []) ∧
    readOnlyClient.DeleteAllOf { Client := none, newError := ne } = (ne "DeleteAllOf", []) ∧
    readOnlySubresourceClient.Update (readOnlyClient.Status { Client := none, newError := ne })
      = (ne "Update", []) ∧
    readOnlySubresourceClient.Create (readOnlyClient.Status { Client := none, newError := ne })
      = (ne "Update", []) ∧
    readOnlySubresourceClient.Patch
      (readOnlyClient.SubResource { Client := none, newError := ne } name)
      = (ne "Update", []) ∧
    readOnlyClient.Create { Client := some d', newError := ne } =
      readOnlyClient.Create { Client := none, newError := ne } ∧
    readOnlyClient.Delete { Client := some d', newError := ne } =
      readOnlyClient.Delete { Client := none, newError := ne } ∧
    readOnlyClient.Get { Client := none, newError := ne } key = none := by
  refine ⟨?_, ?_, ?_, ?_, ?_, ?_, ?_, ?_, ?_, ?_, ?_, ?_, ?_, ?_, ?_⟩ <;> rfl

/-! ## The objects codec (`ParseKubernetesObjects` and friends) -/

/-- One text line of the document stream (a Go string / byte slice). -/
abbrev Line := List Char

/-- One chunk of the document stream as returned by the YAML reader: its lines. -/
abbrev Chunk := List Line

/-- The `---` document delimiter line. -/
def delimLine : Line := "---".toList

/-- Source `data = bytes.TrimLeft(data, "---")`: the cutset "---" is the character set
containing only the dash, so this removes every leading dash character of the
chunk, i.e. the leading run of dashes of its first line (a newline stops the trim). -/
def stripDashes : Chunk → Chunk
  | [] => []
  | l :: rest => l.dropWhile (fun c => c = '-') :: rest

/-- Source `strings.TrimPrefix(line, " ")`: removes one single leading space, if present. -/
def trimLeadingSpace (l : Line) : Line :=
  match l with
  | [] => []
  | c :: rest => if c = ' ' then rest else c :: rest

/-- The per-line test of `commentOnly`: after `TrimPrefix(line, " ")` the line is
empty or starts with a hash. -/
def isSkippableLine (l : Line) : Bool :=
  match trimLeadingSpace l with
  | [] => true
  | c :: _ => c = '#'

/-- Source `func commentOnly(d []byte) bool`: every line of the chunk is empty or a
comment after removing at most one leading space. -/
def commentOnly (d : Chunk) : Bool :=
  d.all isSkippableLine

/-- The multi-document splitter (`kubeyaml.NewYAMLReader`), an external
collaborator: per the documented delimiter convention it splits the line stream
into chunks at `---` delimiter lines, the delimiter lines belonging to no chunk. -/
def splitStream (lines : List Line) : List Chunk :=
  match lines with
  | [] => [[]]
  | l :: rest =>
    if l = delimLine then [] :: splitStream rest
    else
      match splitStream rest with
      | [] => [[l]]
      | c :: cs => (l :: c) :: cs

/-- Model of `type ParseError struct { Data []byte; Err error }`. -/
structure ParseError where
  Data : Chunk
  Err : String
  deriving DecidableEq

/-- The carrier object (`as` in the source) after one decode: the source runs
`as = as.DeepCopyObject()` and then decodes into the copy, so at the level of
values the carrier becomes the decoded object when the deserializer decoded into
the supplied prototype, and keeps its value otherwise; a nil carrier stays nil. -/
def nextCarrier {α : Type} (as : Option α) (o : α) (usedInto : Bool) : Option α :=
  match as with
  | none => none
  | some a => if usedInto then some o else some a

/-- The chunk loop of `func ParseKubernetesObjects(r io.Reader, as runtime.Object)`:
strip leading dashes, skip comment-only chunks, decode the rest, stop at the
first decode failure returning a `ParseError` holding the decoded payload and
the cause (the objects decoded so far are discarded, as in the source, which
returns an empty slice together with the error). -/
def parseChunks {α : Type} (decode : Chunk → Option α → Except String (α × Bool)) :
    List Chunk → Option α → Except ParseError (List α)
  | [], _ => .ok []
  | c :: rest, as =>
    if commentOnly (stripDashes c) then parseChunks decode rest as
    else
      match decode (stripDashes c) as with
      | .error e => .error { Data := stripDashes c, Err := e }
      | .ok (o, usedInto) =>
        match parseChunks decode rest (nextCarrier as o usedInto) with
        | .error e => .error e
        | .ok os => .ok (o :: os)

/-- Function `ParseKubernetesObjects` on a whole line stream: split into chunks, then
run the chunk loop with the supplied prototype. -/
def parseStream {α : Type} (decode : Chunk → Option α → Except String (α × Bool))
    (as : Option α) (lines : List Line) : Except ParseError (List α) :=
  parseChunks decode (splitStream lines) as

/-- Ghost companion of `parseChunks`: the value of the carrier object `as`
after processing the given chunks (used to state what seed the decoder
receives further down the stream). -/
def finalCarrier {α : Type} (decode : Chunk → Option α → Except String (α × Bool)) :
    List Chunk → Option α → Option α
  | [], as => as
  | c :: rest, as =>
    if commentOnly (stripDashes c) then finalCarrier decode rest as
    else
      match decode (stripDashes c) as with
      | .error _ => as
      | .ok (o, usedInto) => finalCarrier decode rest (nextCarrier as o usedInto)

/-- The per-document semantics the specification describes: every chunk is
decoded on its own into (a copy of) the original prototype, never into the
result of a previous decode. -/
def parseAlone {α : Type} (decode : Chunk → Option α → Except String (α × Bool))
    (proto : Option α) : List Chunk → Except ParseError (List α)
  | [] => .ok []
  | c :: rest =>
    if commentOnly (stripDashes c) then parseAlone decode proto rest
    else
      match decode (stripDashes c) proto with
      | .error e => .error { Data := stripDashes c, Err := e }
      | .ok (o, _) =>
        match parseAlone decode proto rest with
        | .error e => .error e
        | .ok os => .ok (o :: os)

/-- A deserializer that returns the payload it was handed, never decoding into
the prototype; used to observe which bytes reach the decoder. -/
def echoDecode : Chunk → Option Chunk → Except String (Chunk × Bool) :=
  fun d _ => .ok (d, false)

/-- A deserializer that rejects every payload, as the universal deserializer
does on a payload that is no Kubernetes object (for instance a comment-only or
empty document, which has no kind). -/
def failDecode : Chunk → Option Chunk → Except String (Chunk × Bool) :=
  fun _ _ => .error "error unmarshaling document"

/-- A deserializer with unmarshal-into semantics: it decodes into the supplied
prototype, keeping the prototype's existing content and appending the payload
(the field-merging behaviour of unmarshalling JSON into a non-empty struct). -/
def mergeDecode : Chunk → Option Line → Except String (Line × Bool) :=
  fun d s => .ok ((s.getD []) ++ d.flatten, true)

/-- A line that `commentOnly` skips carries no leading dash, so the dash trim
leaves it unchanged. -/
theorem dropDashes_of_isSkippableLine {l : Line} (h : isSkippableLine l = true) :
    l.dropWhile (fun c => c = '-') = l := by
  cases l with
  | nil => rfl
  | cons c rest =>
    by_cases hc : c = ' '
    · subst hc
      simp [List.dropWhile_cons]
    · have hna : trimLeadingSpace (c :: rest) = c :: rest := by
        simp [trimLeadingSpace, hc]
      unfold isSkippableLine at h
      rw [hna] at h
      have hsh : c = '#' := by simpa using h
      subst hsh
      simp [List.dropWhile_cons]

/-- Splitter `splitStream` never returns an empty chunk list. -/
theorem splitStream_ne_nil (lines : List Line) : splitStream lines ≠ [] := by
  cases lines with
  | nil => simp [splitStream]
  | cons l rest =>
    unfold splitStream
    by_cases hl : l = delimLine
    · simp [hl]
    · simp only [hl, if_false]
      cases splitStream rest <;> simp

/-- Every line of every chunk produced by `splitStream` is a non-delimiter line
of the input stream. -/
theorem splitStream_mem :
    ∀ (lines : List Line) (c : Chunk) (l : Line),
      c ∈ splitStream lines → l ∈ c → l ∈ lines ∧ l ≠ delimLine := by
  intro lines
  induction lines with
  | nil =>
    intro c l hc hl
    simp [splitStream] at hc
    subst hc
    cases hl
  | cons a rest ih =>
    intro c l hc hl
    unfold splitStream at hc
    by_cases ha : a = delimLine
    · simp only [ha, if_true] at hc
      cases hc with
      | head => cases hl
      | tail _ hmem =>
        obtain ⟨h1, h2⟩ := ih c l hmem hl
        exact ⟨List.mem_cons_of_mem _ h1, h2⟩
    · simp only [ha, if_false] at hc
      cases hs : splitStream rest with
      | nil => exact absurd hs (splitStream_ne_nil rest)
      | cons c0 cs =>
        rw [hs] at hc
        cases hc with
        | head =>
          cases hl with
          | head => exact ⟨List.mem_cons_self _ _, ha⟩
          | tail _ hmem =>
            have hc0 : c0 ∈ splitStream rest := by rw [hs]; exact List.mem_cons_self _ _
            obtain ⟨h1, h2⟩ := ih c0 l hc0 hmem
            exact ⟨List.mem_cons_of_mem _ h1, h2⟩
        | tail _ hmem =>
          have hcs : c ∈ splitStream rest := by rw [hs]; exact List.mem_cons_of_mem _ hmem
          obtain ⟨h1, h2⟩ := ih c l hcs hl
          exact ⟨List.mem_cons_of_mem _ h1, h2⟩

/-- A chunk all of whose lines are skippable is skipped: the dash trim leaves it
unchanged and `commentOnly` accepts it. -/
theorem commentOnly_stripDashes_of_skippable {c : Chunk}
    (h : ∀ l ∈ c, isSkippableLine l = true) :
    commentOnly (stripDashes c) = true := by
  cases c with
  | nil => rfl
  | cons l0 ls =>
    have h0 : isSkippableLine l0 = true := h l0 (List.mem_cons_self _ _)
    simp only [stripDashes]
    rw [dropDashes_of_isSkippableLine h0]
    unfold commentOnly
    rw [List.all_eq_true]
    exact h

/-- The chunk loop returns an empty object list and no error when every chunk is
skipped. -/
theorem parseChunks_all_skipped {α : Type}
    (decode : Chunk → Option α → Except String (α × Bool)) (chunks : List Chunk)
    (as : Option α) (h : ∀ c ∈ chunks, commentOnly (stripDashes c) = true) :
    parseChunks decode chunks as = .ok [] := by
  induction chunks generalizing as with
  | nil => rfl
  | cons c rest ih =>
    have hc : commentOnly (stripDashes c) = true := h c (List.mem_cons_self _ _)
    unfold parseChunks
    rw [hc]
    simp only [if_true]
    exact ih as (fun c2 hc2 => h c2 (List.mem_cons_of_mem _ hc2))

/-- C4 (amended): a stream made solely of `---` delimiter lines and lines that
the source's comment test accepts — empty lines, or lines starting with `#`
after at most ONE leading space — parses to an empty object list without error,
for every deserializer and prototype. (The original claim's "arbitrary leading
whitespace before the `#`" is refuted separately: `commentOnly` trims a single
space only.) -/
theorem spec_c4_skip_stream {α : Type}
    (decode : Chunk → Option α → Except String (α × Bool)) (proto : Option α)
    (lines : List Line)
    (h : ∀ l ∈ lines, l = delimLine ∨ isSkippableLine l = true) :
    parseStream decode proto lines = .ok [] := by
  unfold parseStream
  apply parseChunks_all_skipped
  intro c hc
  apply commentOnly_stripDashes_of_skippable
  intro l hl
  obtain ⟨hmem, hne⟩ := splitStream_mem lines c l hc hl
  cases h l hmem with
  | inl hdelim => exact absurd hdelim hne
  | inr hskip => exact hskip

/-- C4 witness: a concrete stream of delimiters, blank lines, an unspaced and a
one-space comment parses to the empty list. -/
theorem spec_c4_skip_stream_witness :
    (∀ l ∈ [delimLine, [], "# some comment".toList, " # one-space comment".toList,
        delimLine],
      l = delimLine ∨ isSkippableLine l = true) ∧
    parseStream failDecode none
      [delimLine, [], "# some comment".toList, " # one-space comment".toList,
        delimLine] = .ok [] :=
  ⟨by decide, spec_c4_skip_stream failDecode none _ (by decide)⟩

/-- C4 counterexample: a stream consisting of a single comment line with TWO
leading spaces is not recognised as comment-only (`strings.TrimPrefix(line, " ")`
removes one space at most), so the chunk is handed to the deserializer — which
rejects it, as the universal deserializer rejects a document with no kind — and
`Parse` returns an error instead of an empty list. -/
theorem spec_c4_counterexample :
    parseStream failDecode none ["  # two-space comment".toList] =
      .error { Data := ["  # two-space comment".toList],
               Err := "error unmarshaling document" } ∧
    parseStream failDecode none ["  # two-space comment".toList] ≠
      (.ok [] : Except ParseError (List Chunk)) := by
  constructor
  · rfl
  · intro hcontra
    have h1 : parseStream failDecode none ["  # two-space comment".toList] =
        .error { Data := ["  # two-space comment".toList],
                 Err := "error unmarshaling document" } := rfl
    rw [h1] at hcontra
    cases hcontra

/-- Splitting the chunk loop: processing `pre ++ post` is processing `pre`, then
processing `post` with the carrier object left by `pre`. -/
theorem parseChunks_append {α : Type}
    (decode : Chunk → Option α → Except String (α × Bool))
    (pre post : List Chunk) (as : Option α) :
    parseChunks decode (pre ++ post) as =
      match parseChunks decode pre as with
      | .error e => .error e
      | .ok os =>
        match parseChunks decode post (finalCarrier decode pre as) with
        | .error e => .error e
        | .ok os2 => .ok (os ++ os2) := by
  induction pre generalizing as with
  | nil =>
    simp only [List.nil_append, parseChunks, finalCarrier]
    cases parseChunks decode post as <;> rfl
  | cons c pre ih =>
    simp only [List.cons_append, parseChunks, finalCarrier]
    by_cases hskip : commentOnly (stripDashes c) = true
    · simp only [hskip, if_true]
      exact ih as
    · simp only [Bool.not_eq_true] at hskip
      simp only [hskip, Bool.false_eq_true, if_false]
      cases hdec : decode (stripDashes c) as with
      | error e => rfl
      | ok p =>
        obtain ⟨o, usedInto⟩ := p
        dsimp only [List.append_eq]
        rw [ih (nextCarrier as o usedInto)]
        cases parseChunks decode pre (nextCarrier as o usedInto) with
        | error e => rfl
        | ok os =>
          cases parseChunks decode post
              (finalCarrier decode pre (nextCarrier as o usedInto)) <;> rfl

/-- C5: when the first chunk that the loop cannot skip past fails to decode —
after an arbitrary prefix of chunks that parsed fine — `ParseKubernetesObjects`
stops immediately (the remaining chunks are never looked at) and returns a
`ParseError` retaining exactly the offending chunk's decoded payload (its bytes
after delimiter-marker stripping) together with the underlying cause; no object
list accompanies the error (the source returns the empty slice with it). -/
theorem spec_c5_first_decode_failure_aborts {α : Type}
    (decode : Chunk → Option α → Except String (α × Bool)) (as : Option α)
    (pre : List Chunk) (c : Chunk) (rest : List Chunk) (os : List α) (e : String)
    (hpre : parseChunks decode pre as = .ok os)
    (hnc : commentOnly (stripDashes c) = false)
    (hdec : decode (stripDashes c) (finalCarrier decode pre as) = .error e) :
    parseChunks decode (pre ++ c :: rest) as =
      .error { Data := stripDashes c, Err := e } := by
  rw [parseChunks_append decode pre (c :: rest) as, hpre]
  simp only [parseChunks, hnc, Bool.false_eq_true, if_false, hdec]

/-- C5 witness: after a comment-only chunk, a chunk the deserializer rejects
aborts parsing with the chunk's bytes and the cause in the error. -/
theorem spec_c5_first_decode_failure_aborts_witness :
    parseChunks failDecode [["# header".toList]] none = .ok [] ∧
    commentOnly (stripDashes ["not an object".toList]) = false ∧
    failDecode (stripDashes ["not an object".toList])
      (finalCarrier failDecode [["# header".toList]] none) =
      .error "error unmarshaling document" ∧
    parseChunks failDecode
        [["# header".toList], ["not an object".toList], ["never reached".toList]]
        none =
      .error { Data := ["not an object".toList], Err := "error unmarshaling document" } :=
  ⟨rfl, by decide, rfl,
    spec_c5_first_decode_failure_aborts failDecode none
      [["# header".toList]] ["not an object".toList] [["never reached".toList]]
      [] "error unmarshaling document" rfl (by decide) rfl⟩

/-- C6 (amended): before decoding, the loop removes the leading run of `-`
characters from the chunk's first line (`bytes.TrimLeft(data, "---")` — the
cutset contains only the dash) and leaves every other byte alone: the payload
reaching the deserializer for a one-chunk stream is exactly the chunk with the
leading dashes of its first line dropped. A payload whose own first line begins
with `-` therefore loses those leading bytes too. -/
theorem spec_c6_leading_dashes_trimmed (l : Line) (ls : List Line)
    (h : commentOnly (stripDashes (l :: ls)) = false) :
    parseChunks echoDecode [l :: ls] none =
      .ok [l.dropWhile (fun c => c = '-') :: ls] := by
  simp only [stripDashes] at h
  simp only [parseChunks, stripDashes, h, Bool.false_eq_true, if_false, echoDecode]

/-- C6 amended-claim witness: a one-line document starting with a dash reaches
the deserializer with its leading dash removed. -/
theorem spec_c6_leading_dashes_trimmed_witness :
    commentOnly (stripDashes ["- entry".toList]) = false ∧
    parseChunks echoDecode [["- entry".toList]] none =
      .ok [("- entry".toList).dropWhile (fun c => c = '-') :: ([] : List Line)] :=
  ⟨by decide, spec_c6_leading_dashes_trimmed "- entry".toList [] (by decide)⟩

/-- C6 counterexample: a document that is a top-level YAML list (its payload
begins with a `-` that is no delimiter marker) is NOT decoded from its payload
unchanged: the observing deserializer receives `" first item"`, not
`"- first item"` — a payload byte was removed. -/
theorem spec_c6_counterexample :
    parseStream echoDecode none [delimLine, "- first item".toList] =
      .ok [[" first item".toList]] ∧
    parseStream echoDecode none [delimLine, "- first item".toList] ≠
      .ok [["- first item".toList]] := by
  constructor
  · rfl
  · intro hcontra
    have h1 : parseStream echoDecode none [delimLine, "- first item".toList] =
        .ok [[" first item".toList]] := rfl
    rw [h1] at hcontra
    injection hcontra with h2
    exact absurd h2 (by decide)

/-- C7 (amended): the loop deep-copies the carrier object before every decode,
so no previously produced object is ever mutated; and PROVIDED the
deserializer's output does not depend on the current contents of the prototype
it is handed (seed-independence), each returned object equals the result of
decoding its own chunk alone into (a copy of) the original prototype. Without
that proviso the equality fails, because the per-iteration copy is taken of the
evolving carrier — which, whenever the deserializer decodes into its prototype,
holds the previous document's object — not of the original prototype. -/
theorem spec_c7_fresh_copy_per_document {α : Type}
    (decode : Chunk → Option α → Except String (α × Bool)) (proto : α)
    (chunks : List Chunk)
    (h : ∀ (data : Chunk) (s s' : α), decode data (some s) = decode data (some s')) :
    parseChunks decode chunks (some proto) = parseAlone decode (some proto) chunks := by
  suffices hgen : ∀ (a : α),
      parseChunks decode chunks (some a) = parseAlone decode (some proto) chunks by
    exact hgen proto
  induction chunks with
  | nil => intro a; rfl
  | cons c rest ih =>
    intro a
    by_cases hskip : commentOnly (stripDashes c) = true
    · simp only [parseChunks, parseAlone, hskip, if_true]
      exact ih a
    · simp only [Bool.not_eq_true] at hskip
      simp only [parseChunks, parseAlone, hskip, Bool.false_eq_true, if_false]
      rw [h (stripDashes c) a proto]
      cases hdec : decode (stripDashes c) (some proto) with
      | error e => rfl
      | ok p =>
        obtain ⟨o, usedInto⟩ := p
        cases usedInto with
        | true =>
          dsimp only
          rw [show nextCarrier (some a) o true = some o from rfl, ih o]
        | false =>
          dsimp only
          rw [show nextCarrier (some a) o false = some a from rfl, ih a]

/-- C7 witness: with a deserializer whose output ignores the prototype contents
the chunk loop agrees with decoding every chunk alone into the prototype. -/
theorem spec_c7_fresh_copy_per_document_witness :
    (∀ (data : Chunk) (s s' : Chunk), echoDecode data (some s) = echoDecode data (some s')) ∧
    parseChunks echoDecode [["a: 1".toList], ["b: 2".toList]] (some ([] : Chunk)) =
      parseAlone echoDecode (some ([] : Chunk)) [["a: 1".toList], ["b: 2".toList]] :=
  ⟨fun _ _ _ => rfl,
    spec_c7_fresh_copy_per_document echoDecode [] [["a: 1".toList], ["b: 2".toList]]
      (fun _ _ _ => rfl)⟩

/-- C7 counterexample: with a deserializer that decodes into its prototype and
keeps the prototype's existing content (unmarshal-into merge semantics), the
second returned object is NOT the result of decoding its own chunk alone into a
copy of the original (empty) prototype: the chunk loop produces
`"a: 1b: 2"` for the second document, while decoding the second chunk alone into
the original prototype produces `"b: 2"` — because the per-document deep copy is
taken of the carrier left by document one, not of the original prototype. -/
theorem spec_c7_counterexample :
    parseChunks mergeDecode [["a: 1".toList], ["b: 2".toList]] (some ([] : Line)) =
      .ok ["a: 1".toList, "a: 1b: 2".toList] ∧
    mergeDecode (stripDashes ["b: 2".toList]) (some ([] : Line)) =
      .ok ("b: 2".toList, true) ∧
    parseAlone mergeDecode (some ([] : Line)) [["a: 1".toList], ["b: 2".toList]] =
      .ok ["a: 1".toList, "b: 2".toList] ∧
    ("a: 1b: 2".toList : Line) ≠ "b: 2".toList := by
  refine ⟨rfl, rfl, rfl, by decide⟩

/-! ## The serializer (`SerialiseObjects`) -/

/-- The loop of `func SerialiseObjects(scheme, w, objects...)`: the writer `w`
is the accumulated line buffer; before every object except the first a `---`
line is written; each object is encoded by the registry's canonical encoder
(external collaborator `encode`, yielding the document's lines or an error);
the first encoding failure is returned at once, leaving whatever was already
written in the buffer. -/
def serialiseAux {α : Type} (encode : α → Except String (List Line)) :
    Bool → List α → List Line → List Line × Option String
  | _, [], buf => (buf, none)
  | isFirst, o :: rest, buf =>
    match encode o with
    | .error e => (if isFirst then buf else buf ++ [delimLine], some e)
    | .ok doc =>
      serialiseAux encode false rest ((if isFirst then buf else buf ++ [delimLine]) ++ doc)

/-- Source `SerialiseObjects`: run the loop on an empty writer. -/
def SerialiseObjects {α : Type} (encode : α → Except String (List Line))
    (objects : List α) : List Line × Option String :=
  serialiseAux encode true objects []

/-- The stream shape the specification prescribes: each document's lines in
input order, one `---` delimiter line before every document except the first. -/
def delimited : List (List Line) → List Line
  | [] => []
  | d :: ds => d ++ (ds.map (fun d2 => delimLine :: d2)).flatten

/-- The non-first portion of the loop: every remaining document is preceded by a
delimiter line. -/
theorem serialiseAux_false_ok {α : Type} (encode : α → Except String (List Line))
    {objects : List α} {docs : List (List Line)}
    (h : List.Forall₂ (fun o d => encode o = .ok d) objects docs) :
    ∀ buf, serialiseAux encode false objects buf =
      (buf ++ (docs.map (fun d2 => delimLine :: d2)).flatten, none) := by
  induction h with
  | nil => intro buf; simp [serialiseAux]
  | cons hod htail ih =>
    intro buf
    rename_i o d objects2 docs2
    simp only [serialiseAux, hod, ih, List.map_cons, List.flatten_cons]
    simp [List.append_assoc]

/-- The whole loop on success: first document undelimited, the rest delimited. -/
theorem serialiseAux_true_ok {α : Type} (encode : α → Except String (List Line))
    {objects : List α} {docs : List (List Line)}
    (h : List.Forall₂ (fun o d => encode o = .ok d) objects docs) :
    ∀ buf, serialiseAux encode true objects buf = (buf ++ delimited docs, none) := by
  cases h with
  | nil => intro buf; simp [serialiseAux, delimited]
  | cons hod htail =>
    intro buf
    rename_i o d objects2 docs2
    simp only [serialiseAux, hod, serialiseAux_false_ok encode htail, delimited]
    simp [List.append_assoc]

/-- The loop aborts with the first encoding failure, whatever came before. -/
theorem serialiseAux_first_error {α : Type} (encode : α → Except String (List Line))
    {pre : List α} {preDocs : List (List Line)}
    (h : List.Forall₂ (fun o d => encode o = .ok d) pre preDocs)
    {o : α} {e : String} (he : encode o = .error e) (post : List α) :
    ∀ isFirst buf, (serialiseAux encode isFirst (pre ++ o :: post) buf).2 = some e := by
  induction h with
  | nil =>
    intro isFirst buf
    simp [serialiseAux, he]
  | cons hod htail ih =>
    intro isFirst buf
    simp only [List.cons_append, serialiseAux, hod]
    exact ih false _

/-- Counting delimiters in the delimiter-prefixed tail documents: one each,
provided no document contains a bare delimiter line of its own. -/
theorem flatten_delim_count (ds : List (List Line))
    (h : ∀ d ∈ ds, delimLine ∉ d) :
    ((ds.map (fun d2 => delimLine :: d2)).flatten).count delimLine = ds.length := by
  induction ds with
  | nil => rfl
  | cons d2 ds2 ih =>
    have h2 : delimLine ∉ d2 := h d2 (List.mem_cons_self _ _)
    simp only [List.map_cons, List.flatten_cons, List.count_append, List.count_cons_self,
      List.length_cons]
    rw [List.count_eq_zero.mpr h2, ih (fun x hx => h x (List.mem_cons_of_mem _ hx))]
    omega

/-- Counting the delimiters of the delimited stream: one per non-first document,
provided no document contains a bare delimiter line of its own. -/
theorem delimited_count (docs : List (List Line))
    (hclean : ∀ d ∈ docs, delimLine ∉ d) :
    (delimited docs).count delimLine = docs.length - 1 := by
  cases docs with
  | nil => rfl
  | cons d ds =>
    have hd : delimLine ∉ d := hclean d (List.mem_cons_self _ _)
    have hrest : ∀ d2 ∈ ds, delimLine ∉ d2 :=
      fun d2 h2 => hclean d2 (List.mem_cons_of_mem _ h2)
    simp only [delimited, List.count_append, List.length_cons, Nat.add_sub_cancel]
    rw [List.count_eq_zero.mpr hd, Nat.zero_add, flatten_delim_count ds hrest]

/-- C8: `SerialiseObjects` writes the documents in input order with a `---`
delimiter line before every document except the first (so a stream of n
successfully encoded objects carries exactly n-1 delimiter lines, when no
encoded document contains a bare delimiter line of its own), and the first
encoding failure aborts the whole operation and is returned as the result. -/
theorem spec_c8_serialise_delimiters_and_abort {α : Type}
    (encode : α → Except String (List Line)) :
    (∀ (objects : List α) (docs : List (List Line)),
      List.Forall₂ (fun o d => encode o = .ok d) objects docs →
      SerialiseObjects encode objects = (delimited docs, none)) ∧
    (∀ (objects : List α) (docs : List (List Line)),
      List.Forall₂ (fun o d => encode o = .ok d) objects docs →
      (∀ d ∈ docs, delimLine ∉ d) →
      ((SerialiseObjects encode objects).1.count delimLine = objects.length - 1)) ∧
    (∀ (pre : List α) (preDocs : List (List Line)) (o : α) (e : String) (post : List α),
      List.Forall₂ (fun o2 d => encode o2 = .ok d) pre preDocs →
      encode o = .error e →
      (SerialiseObjects encode (pre ++ o :: post)).2 = some e) := by
  refine ⟨?_, ?_, ?_⟩
  · intro objects docs h
    unfold SerialiseObjects
    rw [serialiseAux_true_ok encode h []]
    simp
  · intro objects docs h hclean
    unfold SerialiseObjects
    rw [serialiseAux_true_ok encode h []]
    simp only [List.nil_append]
    rw [delimited_count docs hclean, h.length_eq]
  · intro pre preDocs o e post h he
    exact serialiseAux_first_error encode h he post true []

/-- The encoder used to witness C8: fails on the empty line, one-line document
otherwise. -/
def encodeW : Line → Except String (List Line) :=
  fun l => if l = [] then .error "encode failure" else .ok [l]

/-- C8 witness: two encodable objects serialise to doc, delimiter, doc with one
delimiter line; an object failing to encode after a good one aborts with its error. -/
theorem spec_c8_serialise_delimiters_and_abort_witness :
    SerialiseObjects encodeW ["a".toList, "b".toList] =
      (delimited [["a".toList], ["b".toList]], none) ∧
    (SerialiseObjects encodeW ["a".toList, "b".toList]).1.count delimLine = 2 - 1 ∧
    (SerialiseObjects encodeW (["a".toList] ++ ([] : Line) :: ["c".toList])).2 =
      some "encode failure" := by
  have hF : List.Forall₂ (fun o d => encodeW o = .ok d)
      ["a".toList, "b".toList] [["a".toList], ["b".toList]] := by
    refine List.Forall₂.cons ?_ (List.Forall₂.cons ?_ List.Forall₂.nil) <;> rfl
  have hF1 : List.Forall₂ (fun o d => encodeW o = .ok d) ["a".toList] [["a".toList]] :=
    List.Forall₂.cons (by rfl) List.Forall₂.nil
  refine ⟨(spec_c8_serialise_delimiters_and_abort encodeW).1 _ _ hF, ?_,
    (spec_c8_serialise_delimiters_and_abort encodeW).2.2
      ["a".toList] [["a".toList]] [] "encode failure" ["c".toList] hF1 rfl⟩
  have h2 := (spec_c8_serialise_delimiters_and_abort encodeW).2.1 _ _ hF (by decide)
  simpa using h2

/-! ## `KubeConfigPath` (client-config builder file) -/

/-- The ambient environment of `KubeConfigPath`: the `KUBECONFIG` and `HOME`
environment variables (empty string when unset, as `os.Getenv` reports) and the
filesystem's `Stat` success predicate. -/
structure FsEnv where
  kubeconfigEnv : String
  homeEnv : String
  statOk : String → Bool

/-- Model of `filepath.Join(os.Getenv("HOME"), ".kube", "config")`. Go's lexical path
cleaning is irrelevant to the resolution logic verified here and is left out;
note that even with an empty HOME the joined path is the non-empty
".kube/config". -/
def homeKubeConfig (env : FsEnv) : String :=
  if env.homeEnv = "" then ".kube/config" else env.homeEnv ++ "/.kube/config"

/-- Source `func KubeConfigPath(configPath string) string`: a loop over the two default
candidates replaces `configPath` by the candidate whenever `configPath` is still
empty — i.e. the first NON-EMPTY of {argument, $KUBECONFIG, $HOME/.kube/config}
is selected — and then that single selected path is `Stat`ed: the empty string
is returned when it does not exist. (`filepath.Clean` of the source is the
identity on the already-clean paths modelled here.) -/
def KubeConfigPath (env : FsEnv) (configPath : String) : String :=
  let resolved :=
    [env.kubeconfigEnv, homeKubeConfig env].foldl
      (fun cp dflt => if cp = "" then dflt else cp) configPath
  if env.statOk resolved then resolved else ""

/-- The environment of the C9 failing input: `KUBECONFIG` names an existing
file, the explicitly passed path exists nowhere. -/
def c9Env : FsEnv :=
  { kubeconfigEnv := "/etc/kubeconfig-that-exists"
    homeEnv := "/home/user"
    statOk := fun p => p = "/etc/kubeconfig-that-exists" }

/-- C9 (divergence witness): with an explicit argument that does not exist while
the lower-precedence `KUBECONFIG` candidate does exist, `KubeConfigPath` returns
the empty string — it stats only the first non-empty candidate and never falls
back to a lower-precedence existing path, contrary to the claimed (and
documented) "first existing path wins" resolution. With an empty argument the
existing `KUBECONFIG` path is returned, confirming the one-candidate selection. -/
theorem spec_c9_no_fallback_to_existing_path :
    KubeConfigPath c9Env "/explicit/missing" = "" ∧
    c9Env.statOk "/etc/kubeconfig-that-exists" = true ∧
    KubeConfigPath c9Env "" = "/etc/kubeconfig-that-exists" := by
  refine ⟨?_, ?_, ?_⟩ <;> decide
